import Mathlib

/-!
The deepl translation client (`deepl.go`)

A shallow embedding of the client in `deepl.go` and the properties of its
request construction, option handling, response handling and error values.

The client is a thin layer over three Go standard-library packages
(`net/url`, `net/http`, `encoding/json`).  What the client needs from them is
collected in the structure `Lib`, over which every definition is parametric:
the theorems hold whatever the endpoint answers and whatever the library
functions compute.  `url.Values` is embedded directly, since the payload
construction is the client's own logic.
-/

set_option linter.dupNamespace false

namespace Deepl

/-! ## Go values used by the client -/

/-- Go `url.Values` (`map[string][]string`): the values stored under each key,
in order.  A key that is not in the map has no values. -/
abbrev Values := String → List String

/-- Go `make(url.Values)`: the empty map. -/
def Values.make : Values := fun _ => []

/-- Go `Values.Set(key, value)`: `vs[key] = []string{value}`. -/
def Values.Set (vs : Values) (key value : String) : Values :=
  fun k => if k = key then [value] else vs k

/-- Go `Values.Add(key, value)`: `vs[key] = append(vs[key], value)`. -/
def Values.Add (vs : Values) (key value : String) : Values :=
  fun k => if k = key then vs k ++ [value] else vs k

/-- Go `type Error int` (`deepl.go`, line 137). -/
abbrev Error := Int

/-- Go `error` values that the client produces or passes on. -/
inductive GoError where
  /-- a status-coded error, `Error(code)` -/
  | status (code : Error)
  /-- the value of `errors.New(msg)` -/
  | errorsNew (msg : String)
  /-- the value of `fmt.Errorf(pfx + ": %w", inner)` -/
  | wrapped (pfx : String) (inner : GoError)
  /-- an error value made by `net/http` or `encoding/json`, with its message -/
  | external (msg : String)
  deriving DecidableEq, Repr

/-- A Go slice: `none` is the nil slice. -/
abbrev Slice (α : Type) := Option (List α)

/-- Go `len(s)`. -/
def len {α : Type} (s : Slice α) : Nat :=
  match s with
  | none => 0
  | some l => l.length

/-- Go `type Language string`: the client converts with `string(lang)` and
`Language(...)`. -/
abbrev Language := String

/-- Modelled from the spec: the language constant `German` (its declaration is
not among the sources); the spec gives the code "DE". -/
def German : Language := "DE"

/-- Modelled from the spec: the language constant `English` (its declaration is
not among the sources); the spec gives the code "EN". -/
def English : Language := "EN"

/-- Modelled from the spec: the `Translation` result type (its declaration is
not among the sources): a translated text and the detected source language
code, the `text` and `detected_source_language` members of a response
element. -/
structure Translation where
  Text : String
  DetectedSourceLanguage : String
  deriving DecidableEq, Repr

/-- Modelled from the spec: the `translateResponse` type (its declaration is
not among the sources): the JSON object with its `translations` array. -/
structure translateResponse where
  Translations : Slice Translation
  deriving DecidableEq, Repr

/-- Modelled from the spec: the `Formal` enumeration (`formality.go` is not
among the sources): a string wrapper holding the canonical token. -/
structure Formal where
  token : String
  deriving DecidableEq, Repr

/-- Modelled from the spec: formality level default, token "default". -/
def DefaultFormal : Formal := ⟨"default"⟩

/-- Modelled from the spec: formality level less, token "less". -/
def LessFormal : Formal := ⟨"less"⟩

/-- Modelled from the spec: formality level more, token "more". -/
def MoreFormal : Formal := ⟨"more"⟩

/-- Modelled from the spec: `Formal.Value`, the wire value of a formality
level, its canonical token. -/
def Formal.Value (f : Formal) : String := f.token

/-- Modelled from the spec: `Formal.String`, the display form of a formality
level, which is its wire value. -/
def Formal.String (f : Formal) : String := f.Value

/-- Modelled from the spec: the `SplitSentence` enumeration (its declaration
is not among the sources): a string wrapper holding the canonical token. -/
structure SplitSentence where
  token : String
  deriving DecidableEq, Repr

/-- Modelled from the spec: `SplitSentence.Value`, the canonical string value
of the mode. -/
def SplitSentence.Value (s : SplitSentence) : String := s.token

/-- Go `context.Context`; the client accepts it and never reads it. -/
structure Context where
  cancelled : Bool

/-- Go `http.Response`, the members the client reads. -/
structure Response where
  StatusCode : Int
  Body : String

/-- Go `http.StatusOK`. -/
def StatusOK : Int := 200

/-- The standard-library behaviour the client relies on. -/
structure Lib where
  /-- Go `http.StatusText(code)` -/
  StatusText : Int → String
  /-- Go `Values.Encode()` -/
  Encode : Values → String
  /-- Go `http.Post(url, contentType, body)`: the endpoint's response, or a
  transport error -/
  Post : String → String → String → Except GoError Response
  /-- Go `json.NewDecoder(body).Decode(&response)` for a `translateResponse` -/
  Decode : String → Except GoError translateResponse

/-! ## The client -/

/-- Go constant `V2`: the base url for v2 of the deepl API. -/
def V2 : String := "https://api.deepl.com/v2"

/-- Go `Client`. -/
structure Client where
  authKey : String
  baseURL : String

/-- Go `ClientOption`, `func(*Client)`. -/
abbrev ClientOption := Client → Client

/-- Go `New`. -/
def New (authKey : String) (opts : List ClientOption) : Client :=
  opts.foldl (fun c opt => opt c) { authKey := authKey, baseURL := V2 }

/-- Go `BaseURL`. -/
def BaseURL (url : String) : ClientOption :=
  fun c => { c with baseURL := url }

/-- Go `TranslateOption`, `func(url.Values)`: the payload after the call. -/
abbrev TranslateOption := Values → Values

/-- Go `boolString`. -/
def boolString (b : Bool) : String :=
  if b then "1" else "0"

/-- Go `SourceLang`. -/
def SourceLang (lang : Language) : TranslateOption :=
  fun vals => vals.Set "source_lang" lang

/-- Go `SplitSentences`. -/
def SplitSentences (split : SplitSentence) : TranslateOption :=
  fun vals => vals.Set "split_sentences" split.Value

/-- Go `PreserveFormatting`. -/
def PreserveFormatting (preserve : Bool) : TranslateOption :=
  fun vals => vals.Set "preserve_formatting" (boolString preserve)

/-- Go `Formality`. -/
def Formality (formal : Formal) : TranslateOption :=
  fun vals => vals.Set "formality" formal.Value

/-- Go `Error.Error`: the message of a status-coded error. -/
def Error.Error (lib : Lib) (err : Error) : String :=
  if err = 456 then "Quota exceeded. The character limit has been reached."
  else lib.StatusText err

/-- Go `Client.translateURL`. -/
def Client.translateURL (c : Client) : String :=
  c.baseURL ++ "/translate"

/-- The loop `for _, opt := range opts { opt(vals) }` of `TranslateMany`. -/
def applyOptions (vals : Values) (opts : List TranslateOption) : Values :=
  opts.foldl (fun vals opt => opt vals) vals

/-- The payload that `TranslateMany` builds before it posts (lines 95-105). -/
def Client.payload (c : Client) (texts : List String) (targetLang : Language)
    (opts : List TranslateOption) : Values :=
  let vals := Values.make
  let vals := vals.Set "auth_key" c.authKey
  let vals := vals.Set "target_lang" targetLang
  let vals := texts.foldl (fun vals text => vals.Add "text" text) vals
  applyOptions vals opts

/-- Go `Client.TranslateMany`: the result slice and the error (`none` is `nil`). -/
def Client.TranslateMany (lib : Lib) (c : Client) (_ctx : Context) (texts : List String)
    (targetLang : Language) (opts : List TranslateOption) :
    Slice Translation × Option GoError :=
  let vals := c.payload texts targetLang opts
  match lib.Post c.translateURL "application/x-www-form-urlencoded" (lib.Encode vals) with
  | .error err => (none, some (.wrapped "deepl translate" err))
  | .ok resp =>
    if resp.StatusCode ≠ StatusOK then (none, some (.status resp.StatusCode))
    else
      match lib.Decode resp.Body with
      | .error err => (none, some (.wrapped "decode deepl response" err))
      | .ok response => (response.Translations, none)

/-- Go `s[i]`: `none` when the index is out of range (a run-time panic in Go). -/
def index {α : Type} (s : Slice α) (i : Nat) : Option α :=
  match s with
  | none => none
  | some l => l.get? i

/-- The outcome of a call: it returns its results, or panics at run time. -/
inductive Outcome (α : Type) where
  | returned (results : α)
  | panicked

/-- Go `Client.Translate`. -/
def Client.Translate (lib : Lib) (c : Client) (ctx : Context) (text : String)
    (targetLang : Language) (opts : List TranslateOption) :
    Outcome (String × Language × Option GoError) :=
  match c.TranslateMany lib ctx [text] targetLang opts with
  | (_, some err) => .returned ("", "", some (.wrapped "translate many" err))
  | (translations, none) =>
    if len translations = 0 then
      .returned ("", "", some (.errorsNew "deepl responded with no translations"))
    else
      match index translations 0 with
      | none => .panicked
      | some t => .returned (t.Text, t.DetectedSourceLanguage, none)

/-! ## Error values -/

/-- The message of an error value, Go `err.Error()`. -/
def GoError.message (lib : Lib) : GoError → String
  | .status code => Error.Error lib code
  | .errorsNew msg => msg
  | .wrapped pfx inner => pfx ++ ": " ++ inner.message lib
  | .external msg => msg

/-- Go `errors.Unwrap`. -/
def GoError.unwrap : GoError → Option GoError
  | .wrapped _ inner => some inner
  | _ => none

/-- Go `errors.Is(err, target)`: `target` is `err` or is in its chain. -/
def GoError.is : GoError → GoError → Bool
  | .wrapped pfx inner, target =>
    decide (GoError.wrapped pfx inner = target) || inner.is target
  | err, target => decide (err = target)

/-! ## Options that set one form field -/

/-- The option `func(vals url.Values) { vals.Set(key, value) }`, the shape of
every option constructor of the package. -/
def setter (key value : String) : TranslateOption :=
  fun vals => vals.Set key value

/-- The option sets the form field `key` (to some fixed value). -/
def SetsField (opt : TranslateOption) (key : String) : Prop :=
  ∃ value, opt = setter key value

/-- The options built from the constructors `SourceLang`, `SplitSentences`,
`PreserveFormatting` and `Formality`. -/
inductive Provided : TranslateOption → Prop where
  | sourceLang (lang : Language) : Provided (SourceLang lang)
  | splitSentences (split : SplitSentence) : Provided (SplitSentences split)
  | preserveFormatting (preserve : Bool) : Provided (PreserveFormatting preserve)
  | formality (formal : Formal) : Provided (Formality formal)

/-- Go `Values.Get(key)`: the first value under the key, "" when there is
none. -/
def Values.Get (vs : Values) (key : String) : String :=
  match vs key with
  | [] => ""
  | value :: _ => value

/-- An option written by a caller of the package,
`func(vals url.Values) { vals.Set("glossary_id", vals.Get("source_lang")) }`:
it reads a field that other options set. -/
def copySourceLang : TranslateOption :=
  fun vals => vals.Set "glossary_id" (vals.Get "source_lang")

/-! ## A test double of the libraries -/

/-- The response body of the documented example. -/
def exampleBody : String :=
  "\x7b\"translations\":[\x7b\"text\":\"Dies ist ein Beispieltext.\",\"detected_source_language\":\"EN\"\x7d]\x7d"

/-- A response body with an empty translations array. -/
def emptyBody : String := "\x7b\"translations\":[]\x7d"

/-- A decoder stand-in that knows the two bodies above and rejects every other
body. -/
def stubDecode (body : String) : Except GoError translateResponse :=
  if body = exampleBody then .ok ⟨some [⟨"Dies ist ein Beispieltext.", "EN"⟩]⟩
  else if body = emptyBody then .ok ⟨some []⟩
  else .error (.external "invalid character")

/-- A few entries of the table of reason phrases. -/
def stubStatusText (code : Int) : String :=
  if code = 200 then "OK"
  else if code = 201 then "Created"
  else if code = 403 then "Forbidden"
  else if code = 404 then "Not Found"
  else if code = 500 then "Internal Server Error"
  else ""

/-- Libraries in front of a mocked endpoint that answers every request with the
given status and body. -/
def mockLib (status : Int) (body : String) : Lib where
  StatusText := stubStatusText
  Encode := fun _ => ""
  Post := fun _ _ _ => .ok ⟨status, body⟩
  Decode := stubDecode

/-- Libraries whose transport fails on every request. -/
def downLib : Lib where
  StatusText := stubStatusText
  Encode := fun _ => ""
  Post := fun _ _ _ => .error (.external "connection refused")
  Decode := stubDecode

/-- The context of the examples. -/
def background : Context := ⟨false⟩


/-! ## Lemmas on payloads -/

theorem Values.Set_apply (vs : Values) (key value k : String) :
    (vs.Set key value) k = if k = key then [value] else vs k := rfl

theorem Values.Add_apply (vs : Values) (key value k : String) :
    (vs.Add key value) k = if k = key then vs k ++ [value] else vs k := rfl

theorem setter_apply (key value : String) (vals : Values) (k : String) :
    setter key value vals k = if k = key then [value] else vals k := rfl

theorem applyOptions_nil (vals : Values) : applyOptions vals [] = vals := rfl

theorem applyOptions_cons (vals : Values) (opt : TranslateOption)
    (opts : List TranslateOption) :
    applyOptions vals (opt :: opts) = applyOptions (opt vals) opts := rfl

theorem applyOptions_append (vals : Values) (xs ys : List TranslateOption) :
    applyOptions vals (xs ++ ys) = applyOptions (applyOptions vals xs) ys := by
  simp [applyOptions, List.foldl_append]

/-- Each provided constructor sets exactly one of the four optional fields. -/
theorem Provided.setsField {opt : TranslateOption} (h : Provided opt) :
    SetsField opt "source_lang" ∨ SetsField opt "split_sentences" ∨
      SetsField opt "preserve_formatting" ∨ SetsField opt "formality" := by
  cases h with
  | sourceLang lang => exact Or.inl ⟨lang, rfl⟩
  | splitSentences split => exact Or.inr (Or.inl ⟨split.Value, rfl⟩)
  | preserveFormatting preserve =>
    exact Or.inr (Or.inr (Or.inl ⟨boolString preserve, rfl⟩))
  | formality formal => exact Or.inr (Or.inr (Or.inr ⟨formal.Value, rfl⟩))

/-- An option that sets another field leaves the field `k` as it was. -/
theorem SetsField.apply_of_ne {opt : TranslateOption} {key : String}
    (h : SetsField opt key) (vals : Values) {k : String} (hk : k ≠ key) :
    opt vals k = vals k := by
  obtain ⟨value, rfl⟩ := h
  simp [setter_apply, hk]

/-- Options that leave a field alone, applied in sequence, leave it alone. -/
theorem applyOptions_untouched (k : String) (opts : List TranslateOption)
    (h : ∀ opt ∈ opts, ∀ vals : Values, opt vals k = vals k) (vals : Values) :
    applyOptions vals opts k = vals k := by
  induction opts generalizing vals with
  | nil => rfl
  | cons opt rest ih =>
    rw [applyOptions_cons, ih (fun o ho => h o (List.mem_cons_of_mem _ ho)),
      h opt (List.mem_cons_self _ _)]

/-- The texts are appended under "text" in the order given. -/
theorem foldl_Add_text (texts : List String) (vals : Values) (k : String) :
    texts.foldl (fun vals text => Values.Add vals "text" text) vals k =
      if k = "text" then vals k ++ texts else vals k := by
  induction texts generalizing vals with
  | nil => simp
  | cons t rest ih =>
    rw [List.foldl_cons, ih, Values.Add_apply]
    split <;> simp

/-- What `TranslateMany` does with the response of the endpoint. -/
theorem TranslateMany_of_response (lib : Lib) (c : Client) (ctx : Context)
    (texts : List String) (targetLang : Language) (opts : List TranslateOption)
    (resp : Response)
    (hpost : lib.Post c.translateURL "application/x-www-form-urlencoded"
      (lib.Encode (c.payload texts targetLang opts)) = .ok resp) :
    c.TranslateMany lib ctx texts targetLang opts =
      if resp.StatusCode ≠ StatusOK then (none, some (.status resp.StatusCode))
      else
        match lib.Decode resp.Body with
        | .error err => (none, some (.wrapped "decode deepl response" err))
        | .ok response => (response.Translations, none) := by
  simp only [Client.TranslateMany, hpost]

/-- What `Translate` does with the results of `TranslateMany`. -/
theorem Translate_of_TranslateMany (lib : Lib) (c : Client) (ctx : Context)
    (text : String) (targetLang : Language) (opts : List TranslateOption) :
    c.Translate lib ctx text targetLang opts =
      match c.TranslateMany lib ctx [text] targetLang opts with
      | (_, some err) => .returned ("", "", some (.wrapped "translate many" err))
      | (translations, none) =>
        if len translations = 0 then
          .returned ("", "", some (.errorsNew "deepl responded with no translations"))
        else
          match index translations 0 with
          | none => .panicked
          | some t => .returned (t.Text, t.DetectedSourceLanguage, none) := rfl

/-- Options that set fields keep two payloads equal outside a field `key`
when the payloads were equal outside it. -/
theorem applyOptions_agree_off (key : String) (opts : List TranslateOption)
    (hopts : ∀ opt ∈ opts, ∃ k, SetsField opt k) (a b : Values)
    (hab : ∀ j, j ≠ key → a j = b j) :
    ∀ j, j ≠ key → applyOptions a opts j = applyOptions b opts j := by
  induction opts generalizing a b with
  | nil => exact hab
  | cons opt rest ih =>
    obtain ⟨k, value, rfl⟩ := hopts _ (List.mem_cons_self _ _)
    rw [applyOptions_cons, applyOptions_cons]
    apply ih (fun o ho => hopts o (List.mem_cons_of_mem _ ho))
    intro j hj
    rw [setter_apply, setter_apply, hab j hj]

/-! ## Error messages -/

/-- C1: for every status code `s` the message of the error value `Error(s)` is
the quota sentence when `s = 456`, and the reason phrase `http.StatusText(s)`
for every other `s`. -/
theorem error_message_of_status (lib : Lib) (s : Error) :
    GoError.message lib (.status s) =
      if s = 456 then "Quota exceeded. The character limit has been reached."
      else lib.StatusText s := rfl

/-! ## Status handling -/

/-- C3: when the endpoint answers with a status outside 200..299, then
whatever the body holds and whatever the decoder would make of it,
`TranslateMany` returns the nil slice and the status-coded error of that
status. -/
theorem translateMany_non2xx (lib : Lib) (c : Client) (ctx : Context)
    (texts : List String) (targetLang : Language) (opts : List TranslateOption)
    (resp : Response)
    (decode : String → Except GoError translateResponse)
    (hpost : lib.Post c.translateURL "application/x-www-form-urlencoded"
      (lib.Encode (c.payload texts targetLang opts)) = .ok resp)
    (hstatus : ¬ (200 ≤ resp.StatusCode ∧ resp.StatusCode ≤ 299)) :
    c.TranslateMany ⟨lib.StatusText, lib.Encode, lib.Post, decode⟩ ctx texts targetLang opts =
      (none, some (.status resp.StatusCode)) := by
  have hne : resp.StatusCode ≠ StatusOK := by
    intro h
    apply hstatus
    rw [h]
    decide
  rw [TranslateMany_of_response ⟨lib.StatusText, lib.Encode, lib.Post, decode⟩ c ctx texts
    targetLang opts resp hpost]
  simp [hne]

/-- Witness of C3: a 404 answer carrying the example body. -/
theorem translateMany_non2xx_witness :
    ¬ (200 ≤ (404 : Int) ∧ (404 : Int) ≤ 299) ∧
    (New "key" []).TranslateMany (mockLib 404 exampleBody) background ["Hello"] German [] =
      (none, some (.status 404)) :=
  ⟨by decide,
   translateMany_non2xx (mockLib 404 exampleBody) (New "key" []) background ["Hello"] German []
    ⟨404, exampleBody⟩ stubDecode rfl (by decide)⟩

/-- C4, as stated, fails: the endpoint answers 201 (a 2xx status) with the
well-formed example body, and `TranslateMany` returns the nil slice and the
status-coded error `Error(201)` instead of the decoded list. -/
theorem translateMany_201_not_decoded :
    (200 ≤ (201 : Int) ∧ (201 : Int) ≤ 299) ∧
    (mockLib 201 exampleBody).Decode exampleBody =
      .ok ⟨some [⟨"Dies ist ein Beispieltext.", "EN"⟩]⟩ ∧
    (New "key" []).TranslateMany (mockLib 201 exampleBody) background
      ["This is an example text."] German [] = (none, some (.status 201)) ∧
    (New "key" []).TranslateMany (mockLib 201 exampleBody) background
      ["This is an example text."] German [] ≠
        (some [⟨"Dies ist ein Beispieltext.", "EN"⟩], none) := by
  refine ⟨by decide, rfl, rfl, ?_⟩
  intro h
  have h2 := congrArg Prod.snd h
  simp [Client.TranslateMany, mockLib, StatusOK] at h2

/-- C4, amended: when the endpoint answers with status 200, `TranslateMany`
returns the decoded list of results and a nil error if the body decodes, and
it returns the nil slice and a decoding error, which wraps the decoder's error
and is no status-coded error, if the body is malformed. -/
theorem translateMany_status200 (lib : Lib) (c : Client) (ctx : Context)
    (texts : List String) (targetLang : Language) (opts : List TranslateOption)
    (resp : Response)
    (hpost : lib.Post c.translateURL "application/x-www-form-urlencoded"
      (lib.Encode (c.payload texts targetLang opts)) = .ok resp)
    (hstatus : resp.StatusCode = 200) :
    (∀ response, lib.Decode resp.Body = .ok response →
      c.TranslateMany lib ctx texts targetLang opts = (response.Translations, none)) ∧
    (∀ err, lib.Decode resp.Body = .error err →
      c.TranslateMany lib ctx texts targetLang opts =
        (none, some (.wrapped "decode deepl response" err)) ∧
      ∀ s, GoError.wrapped "decode deepl response" err ≠ .status s) := by
  have hok : ¬ resp.StatusCode ≠ StatusOK := by simp [hstatus, StatusOK]
  rw [TranslateMany_of_response lib c ctx texts targetLang opts resp hpost, if_neg hok]
  refine ⟨?_, ?_⟩
  · intro response hdec
    rw [hdec]
  · intro err hdec
    rw [hdec]
    exact ⟨rfl, fun s h => GoError.noConfusion h⟩

/-- Witness of C4, amended: a 200 answer with the example body is decoded, and
a 200 answer with a body that is no JSON gives the decoding error. -/
theorem translateMany_status200_witness :
    (mockLib 200 exampleBody).Decode exampleBody =
      .ok ⟨some [⟨"Dies ist ein Beispieltext.", "EN"⟩]⟩ ∧
    (New "key" []).TranslateMany (mockLib 200 exampleBody) background
      ["This is an example text."] German [] =
        (some [⟨"Dies ist ein Beispieltext.", "EN"⟩], none) ∧
    (mockLib 200 "<html>").Decode "<html>" = .error (.external "invalid character") ∧
    (New "key" []).TranslateMany (mockLib 200 "<html>") background
      ["This is an example text."] German [] =
        (none, some (.wrapped "decode deepl response" (.external "invalid character"))) :=
  ⟨rfl,
   (translateMany_status200 (mockLib 200 exampleBody) (New "key" []) background
      ["This is an example text."] German [] ⟨200, exampleBody⟩ rfl rfl).1 _ rfl,
   rfl,
   ((translateMany_status200 (mockLib 200 "<html>") (New "key" []) background
      ["This is an example text."] German [] ⟨200, "<html>"⟩ rfl rfl).2 _ rfl).1⟩

/-! ## Translate and TranslateMany -/

/-- C2: whenever `TranslateMany` on the singleton list of the text, with the
same target language and options, returns a non-empty list `r` and no error,
`Translate` returns the text and the detected source language of `r[0]` and a
nil error.  In particular, when the endpoint answers 200 with the example
body, decoded to its one translation, `Translate` of "This is an example
text." into German returns "Dies ist ein Beispieltext.", "EN" and nil. -/
theorem translate_eq_first_of_translateMany :
    (∀ (lib : Lib) (c : Client) (ctx : Context) (text : String) (targetLang : Language)
      (opts : List TranslateOption) (r : Slice Translation),
      c.TranslateMany lib ctx [text] targetLang opts = (r, none) → len r ≠ 0 →
      ∃ t, index r 0 = some t ∧
        c.Translate lib ctx text targetLang opts =
          .returned (t.Text, t.DetectedSourceLanguage, none)) ∧
    (∀ (lib : Lib) (c : Client) (ctx : Context),
      lib.Post c.translateURL "application/x-www-form-urlencoded"
        (lib.Encode (c.payload ["This is an example text."] German [])) =
          .ok ⟨200, exampleBody⟩ →
      lib.Decode exampleBody = .ok ⟨some [⟨"Dies ist ein Beispieltext.", "EN"⟩]⟩ →
      c.Translate lib ctx "This is an example text." German [] =
        .returned ("Dies ist ein Beispieltext.", "EN", none)) := by
  refine ⟨?_, ?_⟩
  · intro lib c ctx text targetLang opts r hmany hlen
    rw [Translate_of_TranslateMany, hmany]
    simp only [hlen, if_false]
    cases r with
    | none => exact absurd rfl hlen
    | some l =>
      cases l with
      | nil => exact absurd rfl hlen
      | cons t ts => exact ⟨t, rfl, rfl⟩
  · intro lib c ctx hpost hdec
    have hmany := TranslateMany_of_response lib c ctx ["This is an example text."] German []
      ⟨200, exampleBody⟩ hpost
    rw [Translate_of_TranslateMany, hmany]
    simp [StatusOK, hdec, len, index]

/-- Witness of C2: the mocked endpoint answers 200 with the example body. -/
theorem translate_eq_first_of_translateMany_witness :
    (New "key" []).TranslateMany (mockLib 200 exampleBody) background
      ["This is an example text."] German [] =
        (some [⟨"Dies ist ein Beispieltext.", "EN"⟩], none) ∧
    (∃ t, index (some [(⟨"Dies ist ein Beispieltext.", "EN"⟩ : Translation)]) 0 = some t ∧
      (New "key" []).Translate (mockLib 200 exampleBody) background
        "This is an example text." German [] =
          .returned (t.Text, t.DetectedSourceLanguage, none)) ∧
    (New "key" []).Translate (mockLib 200 exampleBody) background
      "This is an example text." German [] =
        .returned ("Dies ist ein Beispieltext.", "EN", none) :=
  ⟨rfl,
   translate_eq_first_of_translateMany.1 (mockLib 200 exampleBody) (New "key" []) background
     "This is an example text." German [] _ rfl (by decide),
   translate_eq_first_of_translateMany.2 (mockLib 200 exampleBody) (New "key" []) background
     rfl rfl⟩

/-! ## The quota status and the empty answer -/

/-- A message that starts with "translate many" is not the message of the
error for an answer without translations. -/
theorem translate_many_message_ne (rest : String) :
    "translate many" ++ ": " ++ rest ≠ "deepl responded with no translations" := by
  intro h
  have hd := congrArg String.data h
  simp only [String.data_append] at hd
  exact absurd hd (by simp)

/-- C5, as stated, fails for `Translate`: on a 456 answer the message of the
error it returns is the quota sentence behind the words "translate many: ",
not exactly the quota sentence. -/
theorem translate_456_message_prefixed :
    (New "key" []).Translate (mockLib 456 "") background "Hello" German [] =
      .returned ("", "", some (.wrapped "translate many" (.status 456))) ∧
    GoError.message (mockLib 456 "") (.wrapped "translate many" (.status 456)) =
      "translate many: Quota exceeded. The character limit has been reached." ∧
    GoError.message (mockLib 456 "") (.wrapped "translate many" (.status 456)) ≠
      "Quota exceeded. The character limit has been reached." := by
  refine ⟨rfl, by decide, by decide⟩

/-- C5, amended: on a 456 answer `TranslateMany` returns the nil slice and the
error `Error(456)`, whose message is exactly the quota sentence; `Translate`
returns the empty text, the empty language and an error that wraps
`Error(456)` and whose message is "translate many: " followed by the quota
sentence. -/
theorem quota_exceeded_on_456 :
    (∀ (lib : Lib) (c : Client) (ctx : Context) (texts : List String)
      (targetLang : Language) (opts : List TranslateOption) (resp : Response),
      lib.Post c.translateURL "application/x-www-form-urlencoded"
        (lib.Encode (c.payload texts targetLang opts)) = .ok resp →
      resp.StatusCode = 456 →
      c.TranslateMany lib ctx texts targetLang opts = (none, some (.status 456)) ∧
      GoError.message lib (.status 456) =
        "Quota exceeded. The character limit has been reached.") ∧
    (∀ (lib : Lib) (c : Client) (ctx : Context) (text : String)
      (targetLang : Language) (opts : List TranslateOption) (resp : Response),
      lib.Post c.translateURL "application/x-www-form-urlencoded"
        (lib.Encode (c.payload [text] targetLang opts)) = .ok resp →
      resp.StatusCode = 456 →
      c.Translate lib ctx text targetLang opts =
        .returned ("", "", some (.wrapped "translate many" (.status 456))) ∧
      GoError.unwrap (.wrapped "translate many" (.status 456)) = some (.status 456) ∧
      GoError.message lib (.wrapped "translate many" (.status 456)) =
        "translate many: Quota exceeded. The character limit has been reached.") := by
  have hmany : ∀ (lib : Lib) (c : Client) (ctx : Context) (texts : List String)
      (targetLang : Language) (opts : List TranslateOption) (resp : Response),
      lib.Post c.translateURL "application/x-www-form-urlencoded"
        (lib.Encode (c.payload texts targetLang opts)) = .ok resp →
      resp.StatusCode = 456 →
      c.TranslateMany lib ctx texts targetLang opts = (none, some (.status 456)) := by
    intro lib c ctx texts targetLang opts resp hpost hstatus
    rw [TranslateMany_of_response lib c ctx texts targetLang opts resp hpost]
    simp [hstatus, StatusOK]
  refine ⟨?_, ?_⟩
  · intro lib c ctx texts targetLang opts resp hpost hstatus
    exact ⟨hmany lib c ctx texts targetLang opts resp hpost hstatus, rfl⟩
  · intro lib c ctx text targetLang opts resp hpost hstatus
    refine ⟨?_, rfl, ?_⟩
    · rw [Translate_of_TranslateMany, hmany lib c ctx [text] targetLang opts resp hpost hstatus]
    · show "translate many" ++ ": " ++ Error.Error lib 456 = _
      have hquota : Error.Error lib 456 =
          "Quota exceeded. The character limit has been reached." := rfl
      rw [hquota]
      decide

/-- Witness of C5, amended: the mocked endpoint answers 456. -/
theorem quota_exceeded_on_456_witness :
    ((New "key" []).TranslateMany (mockLib 456 "") background ["Hello", "World"] German [] =
        (none, some (.status 456)) ∧
      GoError.message (mockLib 456 "") (.status 456) =
        "Quota exceeded. The character limit has been reached.") ∧
    ((New "key" []).Translate (mockLib 456 "") background "Hello" German [] =
        .returned ("", "", some (.wrapped "translate many" (.status 456))) ∧
      GoError.unwrap (.wrapped "translate many" (.status 456)) = some (.status 456) ∧
      GoError.message (mockLib 456 "") (.wrapped "translate many" (.status 456)) =
        "translate many: Quota exceeded. The character limit has been reached.") :=
  ⟨quota_exceeded_on_456.1 (mockLib 456 "") (New "key" []) background ["Hello", "World"]
      German [] ⟨456, ""⟩ rfl rfl,
   quota_exceeded_on_456.2 (mockLib 456 "") (New "key" []) background "Hello"
      German [] ⟨456, ""⟩ rfl rfl⟩

/-- C6: when the endpoint answers 200 and the decoded response has no
translations (an empty or an absent array), `Translate` returns the empty
text, the empty language and the error "deepl responded with no
translations"; `Translate` never panics on an index out of range; and
whenever the underlying `TranslateMany` fails, the error that `Translate`
returns is an other error: the error for no translations is not equal to it,
is not a wrapper of it (`errors.Is` is false), and has an other message. -/
theorem translate_no_translations :
    (∀ (lib : Lib) (c : Client) (ctx : Context) (text : String) (targetLang : Language)
      (opts : List TranslateOption) (resp : Response) (response : translateResponse),
      lib.Post c.translateURL "application/x-www-form-urlencoded"
        (lib.Encode (c.payload [text] targetLang opts)) = .ok resp →
      resp.StatusCode = 200 →
      lib.Decode resp.Body = .ok response →
      len response.Translations = 0 →
      c.Translate lib ctx text targetLang opts =
        .returned ("", "", some (.errorsNew "deepl responded with no translations"))) ∧
    (∀ (lib : Lib) (c : Client) (ctx : Context) (text : String) (targetLang : Language)
      (opts : List TranslateOption),
      c.Translate lib ctx text targetLang opts ≠ .panicked) ∧
    (∀ (lib : Lib) (c : Client) (ctx : Context) (text : String) (targetLang : Language)
      (opts : List TranslateOption) (r : Slice Translation) (err : GoError),
      c.TranslateMany lib ctx [text] targetLang opts = (r, some err) →
      ∃ failure, c.Translate lib ctx text targetLang opts = .returned ("", "", some failure) ∧
        GoError.errorsNew "deepl responded with no translations" ≠ failure ∧
        GoError.is (.errorsNew "deepl responded with no translations") failure = false ∧
        GoError.message lib failure ≠ "deepl responded with no translations") := by
  refine ⟨?_, ?_, ?_⟩
  · intro lib c ctx text targetLang opts resp response hpost hstatus hdec hlen
    rw [Translate_of_TranslateMany,
      TranslateMany_of_response lib c ctx [text] targetLang opts resp hpost]
    simp [hstatus, StatusOK, hdec, hlen]
  · intro lib c ctx text targetLang opts
    rw [Translate_of_TranslateMany]
    rcases c.TranslateMany lib ctx [text] targetLang opts with ⟨r, _ | err⟩
    · rcases r with _ | _ | ⟨t, ts⟩
      · simp [len]
      · simp [len]
      · simp [len, index]
    · simp
  · intro lib c ctx text targetLang opts r err hmany
    refine ⟨.wrapped "translate many" err, ?_, ?_, ?_, ?_⟩
    · rw [Translate_of_TranslateMany, hmany]
    · exact fun h => GoError.noConfusion h
    · simp [GoError.is]
    · exact translate_many_message_ne _

/-- Witness of C6: a 200 answer with an empty translations array, and a
transport that is down. -/
theorem translate_no_translations_witness :
    (New "key" []).Translate (mockLib 200 emptyBody) background "Hello" German [] =
      .returned ("", "", some (.errorsNew "deepl responded with no translations")) ∧
    (∃ failure, (New "key" []).Translate downLib background "Hello" German [] =
        .returned ("", "", some failure) ∧
      GoError.errorsNew "deepl responded with no translations" ≠ failure ∧
      GoError.is (.errorsNew "deepl responded with no translations") failure = false ∧
      GoError.message downLib failure ≠ "deepl responded with no translations") :=
  ⟨translate_no_translations.1 (mockLib 200 emptyBody) (New "key" []) background "Hello"
      German [] ⟨200, emptyBody⟩ ⟨some []⟩ rfl rfl rfl rfl,
   translate_no_translations.2.2 downLib (New "key" []) background "Hello" German [] none
      (.wrapped "deepl translate" (.external "connection refused")) rfl⟩

/-! ## The payload and its options -/

/-- C7: for every list of texts and every sequence of options built from
`SourceLang`, `SplitSentences`, `PreserveFormatting` and `Formality`, the
payload that `TranslateMany` encodes and posts holds under "text" exactly the
input list (same order, repetitions kept), under "auth_key" the credential of
the client and under "target_lang" the target code; and when the endpoint
answers 200 and the body decodes, the slice returned is the translations
slice of the decoded response, as it is. -/
theorem translateMany_payload_and_results (lib : Lib) (c : Client) (ctx : Context)
    (texts : List String) (targetLang : Language) (opts : List TranslateOption)
    (hopts : ∀ opt ∈ opts, Provided opt) :
    c.payload texts targetLang opts "text" = texts ∧
    c.payload texts targetLang opts "auth_key" = [c.authKey] ∧
    c.payload texts targetLang opts "target_lang" = [targetLang] ∧
    (∀ resp response,
      lib.Post c.translateURL "application/x-www-form-urlencoded"
        (lib.Encode (c.payload texts targetLang opts)) = .ok resp →
      resp.StatusCode = 200 →
      lib.Decode resp.Body = .ok response →
      c.TranslateMany lib ctx texts targetLang opts = (response.Translations, none)) := by
  have hkeep : ∀ k : String, k ≠ "source_lang" → k ≠ "split_sentences" →
      k ≠ "preserve_formatting" → k ≠ "formality" →
      ∀ vals : Values, applyOptions vals opts k = vals k := by
    intro k h1 h2 h3 h4 vals
    apply applyOptions_untouched
    intro opt hopt vals
    rcases (hopts opt hopt).setsField with h | h | h | h
    · exact h.apply_of_ne vals h1
    · exact h.apply_of_ne vals h2
    · exact h.apply_of_ne vals h3
    · exact h.apply_of_ne vals h4
  refine ⟨?_, ?_, ?_, ?_⟩
  · show applyOptions _ opts "text" = texts
    rw [hkeep "text" (by decide) (by decide) (by decide) (by decide), foldl_Add_text]
    simp [Values.Set_apply, Values.make]
  · show applyOptions _ opts "auth_key" = [c.authKey]
    rw [hkeep "auth_key" (by decide) (by decide) (by decide) (by decide), foldl_Add_text]
    simp [Values.Set_apply]
  · show applyOptions _ opts "target_lang" = [targetLang]
    rw [hkeep "target_lang" (by decide) (by decide) (by decide) (by decide), foldl_Add_text]
    simp [Values.Set_apply]
  · intro resp response hpost hstatus hdec
    rw [TranslateMany_of_response lib c ctx texts targetLang opts resp hpost]
    simp [hstatus, StatusOK, hdec]

/-- Witness of C7: repeated and empty texts, with options that override each
other. -/
theorem translateMany_payload_and_results_witness :
    (New "key" []).payload ["a", "", "a", "b"] German
      [SourceLang English, Formality MoreFormal, PreserveFormatting true,
        SourceLang "FR"] "text" = ["a", "", "a", "b"] ∧
    (New "key" []).payload ["a", "", "a", "b"] German
      [SourceLang English, Formality MoreFormal, PreserveFormatting true,
        SourceLang "FR"] "auth_key" = ["key"] ∧
    (New "key" []).payload ["a", "", "a", "b"] German
      [SourceLang English, Formality MoreFormal, PreserveFormatting true,
        SourceLang "FR"] "target_lang" = ["DE"] :=
  have h := translateMany_payload_and_results (mockLib 200 exampleBody) (New "key" [])
    background ["a", "", "a", "b"] German
    [SourceLang English, Formality MoreFormal, PreserveFormatting true, SourceLang "FR"]
    (by
      intro opt hopt
      simp only [List.mem_cons, List.mem_singleton, List.mem_nil_iff, or_false] at hopt
      rcases hopt with rfl | rfl | rfl | rfl
      · exact Provided.sourceLang _
      · exact Provided.formality _
      · exact Provided.preserveFormatting _
      · exact Provided.sourceLang _)
  ⟨h.1, h.2.1, h.2.2.1⟩

/-- The payload of `TranslateMany` is its payload without options, with the
options applied to it in the order given. -/
theorem payload_eq_applyOptions (c : Client) (texts : List String) (targetLang : Language)
    (opts : List TranslateOption) :
    c.payload texts targetLang opts = applyOptions (c.payload texts targetLang []) opts := rfl

/-- Removing an option that sets a field does not change the result when,
after options that each set some field, an option follows that sets the same
field. -/
theorem applyOptions_drop_earlier (vals : Values) (pre mid post : List TranslateOption)
    (key old value : String) (hmid : ∀ opt ∈ mid, ∃ k, SetsField opt k) :
    applyOptions vals (pre ++ [setter key old] ++ mid ++ [setter key value] ++ post) =
      applyOptions vals (pre ++ mid ++ [setter key value] ++ post) := by
  have hoff : ∀ j, j ≠ key →
      applyOptions (setter key old (applyOptions vals pre)) mid j =
        applyOptions (applyOptions vals pre) mid j := by
    apply applyOptions_agree_off key mid hmid
    intro j hj
    simp [setter_apply, hj]
  have hsame : setter key value (applyOptions (setter key old (applyOptions vals pre)) mid) =
      setter key value (applyOptions (applyOptions vals pre) mid) := by
    funext j
    rw [setter_apply, setter_apply]
    split
    · rfl
    · exact hoff j (by assumption)
  simp only [applyOptions_append, applyOptions_cons, applyOptions_nil, hsame]

/-- C8, as stated, fails.  With an option between the pair that reads the
field the pair sets, removing the earlier option changes the payload that
`TranslateMany` builds: "glossary_id" holds "EN" with the earlier option and
"" without it.  And with a third option that sets the field, the field holds
the value of the third option, not that of the later option of the first
two. -/
theorem payload_changes_without_earlier_option :
    (SetsField (SourceLang "EN") "source_lang" ∧ SetsField (SourceLang "FR") "source_lang") ∧
    (New "key" []).payload ["Hello"] German
        [SourceLang "EN", copySourceLang, SourceLang "FR"] "glossary_id" = ["EN"] ∧
    (New "key" []).payload ["Hello"] German
        [copySourceLang, SourceLang "FR"] "glossary_id" = [""] ∧
    (New "key" []).payload ["Hello"] German
        [SourceLang "EN", copySourceLang, SourceLang "FR"] ≠
      (New "key" []).payload ["Hello"] German [copySourceLang, SourceLang "FR"] ∧
    (New "key" []).payload ["Hello"] German
        [SourceLang "EN", SourceLang "FR", SourceLang "DE"] "source_lang" = ["DE"] ∧
    (New "key" []).payload ["Hello"] German
        [SourceLang "EN", SourceLang "FR", SourceLang "DE"] "source_lang" ≠ ["FR"] := by
  refine ⟨⟨⟨"EN", rfl⟩, ⟨"FR", rfl⟩⟩, by decide, by decide, ?_, by decide, by decide⟩
  intro h
  exact absurd (congrFun h "glossary_id") (by decide)

/-- C8, amended: `TranslateMany` applies the options to the payload in the
order given, each to the payload the options before it have left, and the
last one wins.  In a sequence in which an option that sets a field is
followed, after options that each set one field to a fixed value, by an other
option that sets the same field, removing the earlier option changes neither
the payload that is built nor what `TranslateMany` returns; and when no option
further on changes that field, the field holds exactly one value, the one of
the later option. -/
theorem payload_later_option_overrides (lib : Lib) (c : Client) (ctx : Context)
    (texts : List String) (targetLang : Language) (pre mid post : List TranslateOption)
    (earlier later : TranslateOption) (key value : String)
    (hearlier : SetsField earlier key) (hlater : later = setter key value)
    (hmid : ∀ opt ∈ mid, ∃ k, SetsField opt k) :
    (∀ (opts : List TranslateOption) (opt : TranslateOption),
      c.payload texts targetLang (opts ++ [opt]) = opt (c.payload texts targetLang opts)) ∧
    c.payload texts targetLang (pre ++ [earlier] ++ mid ++ [later] ++ post) =
      c.payload texts targetLang (pre ++ mid ++ [later] ++ post) ∧
    c.TranslateMany lib ctx texts targetLang (pre ++ [earlier] ++ mid ++ [later] ++ post) =
      c.TranslateMany lib ctx texts targetLang (pre ++ mid ++ [later] ++ post) ∧
    ((∀ opt ∈ post, ∀ vals : Values, opt vals key = vals key) →
      c.payload texts targetLang (pre ++ [earlier] ++ mid ++ [later] ++ post) key =
        [value]) := by
  obtain ⟨old, rfl⟩ := hearlier
  subst hlater
  have heq : c.payload texts targetLang
        (pre ++ [setter key old] ++ mid ++ [setter key value] ++ post) =
      c.payload texts targetLang (pre ++ mid ++ [setter key value] ++ post) := by
    rw [payload_eq_applyOptions, payload_eq_applyOptions c texts targetLang
      (pre ++ mid ++ [setter key value] ++ post)]
    exact applyOptions_drop_earlier _ pre mid post key old value hmid
  refine ⟨?_, heq, ?_, ?_⟩
  · intro opts opt
    rw [payload_eq_applyOptions, payload_eq_applyOptions c texts targetLang opts,
      applyOptions_append]
    rfl
  · simp only [Client.TranslateMany, heq]
  · intro hpost
    rw [heq, payload_eq_applyOptions]
    simp only [applyOptions_append, applyOptions_cons, applyOptions_nil]
    rw [applyOptions_untouched key post hpost]
    simp [setter_apply]

/-- Witness of C8, amended: `SourceLang` given twice with an other option in
between and one after, and `PreserveFormatting(true)` followed by
`PreserveFormatting(false)`. -/
theorem payload_later_option_overrides_witness :
    ((New "key" []).payload ["Hello"] German
        ([] ++ [SourceLang "EN"] ++ [Formality LessFormal] ++ [SourceLang "FR"] ++
          [SplitSentences ⟨"0"⟩]) =
      (New "key" []).payload ["Hello"] German
        ([] ++ [Formality LessFormal] ++ [SourceLang "FR"] ++ [SplitSentences ⟨"0"⟩]) ∧
     (New "key" []).payload ["Hello"] German
        ([] ++ [SourceLang "EN"] ++ [Formality LessFormal] ++ [SourceLang "FR"] ++
          [SplitSentences ⟨"0"⟩]) "source_lang" = ["FR"]) ∧
    (New "key" []).payload ["Hello"] German
        ([] ++ [PreserveFormatting true] ++ [] ++ [PreserveFormatting false] ++ [])
        "preserve_formatting" = ["0"] :=
  have h1 := payload_later_option_overrides (mockLib 200 exampleBody) (New "key" [])
    background ["Hello"] German [] [Formality LessFormal]
    [SplitSentences ⟨"0"⟩] (SourceLang "EN") (SourceLang "FR") "source_lang" "FR"
    ⟨"EN", rfl⟩ rfl
    (by
      intro opt hopt
      rw [List.mem_singleton] at hopt
      exact ⟨"formality", LessFormal.Value, hopt⟩)
  have h2 := payload_later_option_overrides (mockLib 200 exampleBody) (New "key" [])
    background ["Hello"] German [] [] []
    (PreserveFormatting true) (PreserveFormatting false) "preserve_formatting" "0"
    ⟨"1", rfl⟩ rfl (by intro opt hopt; cases hopt)
  ⟨⟨h1.2.1, h1.2.2.2 (by
      intro opt hopt vals
      rw [List.mem_singleton] at hopt
      subst hopt
      rfl)⟩,
   h2.2.2.2 (by intro opt hopt; cases hopt)⟩

/-- C9: for every payload, `PreserveFormatting(true)` puts the single value
"1" under "preserve_formatting" and `PreserveFormatting(false)` the single
value "0"; every other field keeps its values. -/
theorem preserveFormatting_payload (vals : Values) (k : String) :
    PreserveFormatting true vals k =
      (if k = "preserve_formatting" then ["1"] else vals k) ∧
    PreserveFormatting false vals k =
      (if k = "preserve_formatting" then ["0"] else vals k) :=
  ⟨rfl, rfl⟩

/-- C10: for each of the formality levels `DefaultFormal`, `LessFormal` and
`MoreFormal` the display string is the wire value, and these are "default",
"less" and "more"; the option `Formality(f)` puts exactly the wire value of
`f` under "formality" and leaves every other field as it was. -/
theorem formality_string_value :
    (DefaultFormal.String = DefaultFormal.Value ∧ DefaultFormal.Value = "default") ∧
    (LessFormal.String = LessFormal.Value ∧ LessFormal.Value = "less") ∧
    (MoreFormal.String = MoreFormal.Value ∧ MoreFormal.Value = "more") ∧
    (∀ (f : Formal) (vals : Values) (k : String),
      Formality f vals k = if k = "formality" then [f.Value] else vals k) ∧
    (∀ vals : Values, Formality DefaultFormal vals "formality" = ["default"] ∧
      Formality LessFormal vals "formality" = ["less"] ∧
      Formality MoreFormal vals "formality" = ["more"]) :=
  ⟨⟨rfl, rfl⟩, ⟨rfl, rfl⟩, ⟨rfl, rfl⟩, fun _ _ _ => rfl, fun _ => ⟨rfl, rfl, rfl⟩⟩

end Deepl
